import Mathlib

/-!
Shallow embedding of the timeline / playback core of src/main.py (a PyQt
video-trimming application). Times and pixel coordinates are Python floats
in the source; they are modelled here as exact rationals, since every
operation involved is rational arithmetic. Qt widget geometry (the widget
width and the paddings) is carried as explicit state fields, and wall-clock
time (Python time.time) is passed to each operation as an explicit
argument. Qt signal emission is modelled by returning the emitted event
alongside the new state; the signal connections of VideoEditorWindow are
applied explicitly at the editor level.
-/

/-- Dragging state of the timeline widget: Python field self.dragging, one
of "start", "end", "playhead" or None (None is modelled by Option). -/
inductive Drag where
  | start
  | end_
  | playhead
deriving Repr, DecidableEq

/-- State of TimelineWidget (src/main.py, class TimelineWidget): clip
duration, playhead, markers, paddings, dragging state, zoom, and the
widget width self.width() treated as a state field. -/
structure TimelineState where
  width : ℚ
  clip_duration : ℚ
  playhead : ℚ
  start_marker : ℚ
  end_marker : ℚ
  left_padding : ℚ
  right_padding : ℚ
  dragging : Option Drag
  drag_offset : ℚ
  pixels_per_second : ℚ
  min_pps : ℚ
  max_pps : ℚ
deriving Repr, DecidableEq

/-- Events emitted by the timeline widget: the Qt signals range_changed
and seek_requested of TimelineWidget. -/
inductive TEvent where
  | range_changed (s e : ℚ)
  | seek_requested (t : ℚ)
deriving Repr, DecidableEq

/-- Python: usable = max(10, self.width() - (self.left_padding + self.right_padding)),
shared by seconds_to_x, x_to_seconds and paintEvent. -/
def usableWidth (s : TimelineState) : ℚ :=
  max 10 (s.width - (s.left_padding + s.right_padding))

/-- TimelineWidget.seconds_to_x (src/main.py lines 103-115). -/
def seconds_to_x (s : TimelineState) (seconds : ℚ) : ℚ :=
  let usable := usableWidth s
  let total_width := s.pixels_per_second * max 1 s.clip_duration
  if total_width ≤ usable then
    let start_x := s.left_padding + (usable - total_width) / 2
    start_x + seconds * s.pixels_per_second
  else
    let scale := usable / (if 0 < s.clip_duration then s.clip_duration else 1)
    s.left_padding + seconds * scale

/-- TimelineWidget.x_to_seconds (src/main.py lines 117-126); the Python
literal 1e-6 is the rational 1/1000000. -/
def x_to_seconds (s : TimelineState) (x : ℚ) : ℚ :=
  let usable := usableWidth s
  let total_width := s.pixels_per_second * max 1 s.clip_duration
  if total_width ≤ usable then
    let start_x := s.left_padding + (usable - total_width) / 2
    max 0 (min s.clip_duration ((x - start_x) / max (1/1000000) s.pixels_per_second))
  else
    let scale := usable / (if 0 < s.clip_duration then s.clip_duration else 1)
    max 0 (min s.clip_duration ((x - s.left_padding) / max (1/1000000) scale))

/-- TimelineWidget.set_clip_duration (src/main.py lines 96-101). -/
def set_clip_duration (s : TimelineState) (duration : ℚ) : TimelineState :=
  { s with clip_duration := max 0 duration
         , start_marker := 0
         , end_marker := max 0 duration
         , playhead := 0 }

/-- TimelineWidget.mousePressEvent (src/main.py lines 232-256): hit-test
with radius 10 in order start marker, end marker, playhead; otherwise a
direct seek that sets the playhead and emits seek_requested. -/
def mousePressEvent (s : TimelineState) (x : ℚ) : TimelineState × Option TEvent :=
  let start_x := seconds_to_x s s.start_marker
  let end_x := seconds_to_x s s.end_marker
  let hit_radius : ℚ := 10
  if |x - start_x| ≤ hit_radius then
    ({ s with dragging := some Drag.start, drag_offset := x - start_x }, none)
  else if |x - end_x| ≤ hit_radius then
    ({ s with dragging := some Drag.end_, drag_offset := x - end_x }, none)
  else
    let ph_x := seconds_to_x s s.playhead
    if |x - ph_x| ≤ hit_radius then
      ({ s with dragging := some Drag.playhead, drag_offset := x - ph_x }, none)
    else
      let sec := x_to_seconds s x
      ({ s with playhead := sec }, some (TEvent.seek_requested sec))

/-- TimelineWidget.mouseMoveEvent (src/main.py lines 258-277). -/
def mouseMoveEvent (s : TimelineState) (x : ℚ) : TimelineState × Option TEvent :=
  match s.dragging with
  | none => (s, none)
  | some d =>
    let sec := max 0 (min s.clip_duration (x_to_seconds s (x - s.drag_offset)))
    match d with
    | Drag.start =>
        let s1 := { s with start_marker := min sec s.end_marker }
        (s1, some (TEvent.range_changed s1.start_marker s1.end_marker))
    | Drag.end_ =>
        let s1 := { s with end_marker := max sec s.start_marker }
        (s1, some (TEvent.range_changed s1.start_marker s1.end_marker))
    | Drag.playhead =>
        let s1 := { s with playhead := sec }
        (s1, some (TEvent.seek_requested sec))

/-- TimelineWidget.mouseReleaseEvent (src/main.py lines 279-280). -/
def mouseReleaseEvent (s : TimelineState) : TimelineState :=
  { s with dragging := none }

/-- TimelineWidget.wheelEvent (src/main.py lines 282-288); the Python
literal 1.15 is the rational 23/20. -/
def wheelEvent (s : TimelineState) (delta : ℚ) : TimelineState :=
  if 0 < delta then
    { s with pixels_per_second := min s.max_pps (s.pixels_per_second * (23/20)) }
  else
    { s with pixels_per_second := max s.min_pps (s.pixels_per_second / (23/20)) }

/-- State of VideoEditorWindow (src/main.py, class VideoEditorWindow).
The external media clip is modelled by its duration only (the clip
service is out of scope); self.clip is None or a clip, hence Option.
self._play_start_sys is a wall-clock instant or None. -/
structure EditorState where
  clip : Option ℚ
  is_playing : Bool
  play_offset : ℚ
  play_start_sys : Option ℚ
  timeline : TimelineState
deriving Repr, DecidableEq

/-- Duration of the loaded clip, 0 when none: the Python idiom
(self.clip.duration if self.clip else 0.0) used in _seek_to. -/
def clipDuration (e : EditorState) : ℚ :=
  match e.clip with
  | some d => d
  | none => 0

/-- Derived playback position at wall-clock instant now:
self._play_offset + (now - self._play_start_sys), the quantity computed
by _on_timer on an anchored state (where _play_start_sys is not None);
when _play_start_sys is None the elapsed term is taken as 0. -/
def derived_position (e : EditorState) (now : ℚ) : ℚ :=
  e.play_offset + (now - (match e.play_start_sys with | some t0 => t0 | none => now))

/-- VideoEditorWindow._start_playback_at (src/main.py lines 491-499);
now is the wall clock read by time.time(). -/
def start_playback_at (e : EditorState) (start_sec now : ℚ) : EditorState :=
  { e with is_playing := true, play_offset := start_sec, play_start_sys := some now }

/-- VideoEditorWindow._pause_playback (src/main.py lines 501-511). The
anchor is read through the Python idiom
(self._play_start_sys or time.time()), whose boolean or treats None and
the float 0.0 as falsy: an anchor of exactly 0.0 is replaced by the
current instant, giving elapsed 0, unlike the explicit
(is not None) test of _on_timer. -/
def pause_playback (e : EditorState) (now : ℚ) : EditorState :=
  if e.is_playing then
    let anchor := match e.play_start_sys with
      | some t0 => if t0 = 0 then now else t0
      | none => now
    let current := e.play_offset + (now - anchor)
    { e with timeline := { e.timeline with playhead := current }
           , is_playing := false
           , play_start_sys := none }
  else e

/-- VideoEditorWindow.stop (src/main.py lines 513-521). -/
def stop (e : EditorState) : EditorState :=
  match e.clip with
  | none => e
  | some _ =>
    { e with is_playing := false
           , play_start_sys := none
           , timeline := { e.timeline with playhead := 0 }
           , play_offset := 0 }

/-- VideoEditorWindow._seek_to (src/main.py lines 588-595). -/
def seek_to (e : EditorState) (sec now : ℚ) : EditorState :=
  let sec1 := max 0 (min (clipDuration e) sec)
  let e1 := { e with timeline := { e.timeline with playhead := sec1 } }
  if e1.is_playing then
    { e1 with play_offset := sec1, play_start_sys := some now }
  else e1

/-- VideoEditorWindow.play_pause (src/main.py lines 481-489). -/
def play_pause (e : EditorState) (now : ℚ) : EditorState :=
  match e.clip with
  | none => e
  | some _ =>
    if e.is_playing then pause_playback e now
    else start_playback_at e e.timeline.playhead now

/-- VideoEditorWindow.step_by (src/main.py lines 523-528). -/
def step_by (e : EditorState) (seconds now : ℚ) : EditorState :=
  match e.clip with
  | none => e
  | some d =>
    let newt := max 0 (min d (e.timeline.playhead + seconds))
    seek_to e newt now

/-- Clock part of VideoEditorWindow._on_timer (src/main.py lines 530-541):
while playing, derive the position from the wall clock; stop when it
reaches min(self.clip.duration, self.timeline.end_marker), otherwise
update the playhead. The preview-frame throttling below line 542 touches
no model state and is omitted. -/
def on_timer (e : EditorState) (now : ℚ) : EditorState :=
  match e.clip with
  | none => e
  | some d =>
    if e.is_playing then
      match e.play_start_sys with
      | some t0 =>
        let current := e.play_offset + (now - t0)
        if min d e.timeline.end_marker ≤ current then stop e
        else { e with timeline := { e.timeline with playhead := current } }
      | none => e
    else e

/-- VideoEditorWindow._on_range_changed (src/main.py lines 599-608), the
slot connected to the range_changed signal; label updates are UI only
and omitted. The two clamping branches call _seek_to sequentially, the
second one re-reading the playhead, exactly as the Python does. -/
def on_range_changed (e : EditorState) (start_sec end_sec now : ℚ) : EditorState :=
  let e1 := { e with timeline := { e.timeline with start_marker := start_sec
                                                 , end_marker := end_sec } }
  let e2 := if e1.timeline.playhead < start_sec then seek_to e1 start_sec now else e1
  if end_sec < e2.timeline.playhead then seek_to e2 end_sec now else e2

/-- VideoEditorWindow._zoom_changed (src/main.py lines 616-622): maps the
slider value 0..100 linearly onto pixels-per-second 40..400. -/
def zoom_changed (e : EditorState) (value : ℚ) : EditorState :=
  let frac := value / 100
  let pps := 40 + (400 - 40) * frac
  { e with timeline := { e.timeline with pixels_per_second := pps } }

/-- Outcome of export_trimmed, recording which external calls were issued:
no_clip and invalid_range return before any subclip or export work,
cancelled models the user dismissing the save dialog, and exported start
end records the clip.subclip(start, end) call followed by the file write. -/
inductive ExportResult where
  | no_clip
  | invalid_range
  | cancelled
  | exported (start_sec end_sec : ℚ)
deriving Repr, DecidableEq

/-- VideoEditorWindow.export_trimmed (src/main.py lines 626-649); the
save-file dialog is modelled by the save_ok flag, and the Python literal
0.01 is the rational 1/100. No branch mutates the editor state (status
labels and message boxes are UI only). -/
def export_trimmed (e : EditorState) (save_ok : Bool) : EditorState × ExportResult :=
  match e.clip with
  | none => (e, ExportResult.no_clip)
  | some _ =>
    let start := e.timeline.start_marker
    let en := e.timeline.end_marker
    if en - start ≤ 1/100 then (e, ExportResult.invalid_range)
    else if save_ok then (e, ExportResult.exported start en)
    else (e, ExportResult.cancelled)

/-- Zero-padded two-digit rendering: the Python format spec 02d applied
to the minute and second fields in sec_to_hms. -/
def pad2 (n : ℕ) : String :=
  if n < 10 then "0" ++ toString n else toString n

/-- sec_to_hms (src/main.py lines 35-44). The Python argument may be None
(Option). All three components are nonnegative because t is clamped with
max(0.0, t) first, so the Python int() truncations coincide with floors
and the components are rendered as naturals. hrs is int(t // 3600), mins
is int((t % 3600) // 60) with t % 3600 = t - 3600 * (t // 3600), secs is
int(t % 60) with t % 60 = t - 60 * (t // 60). -/
def sec_to_hms (t0 : Option ℚ) : String :=
  match t0 with
  | none => "0:00"
  | some t1 =>
    let t := max 0 t1
    let hrs : ℕ := (⌊t / 3600⌋).toNat
    let mins : ℕ := (⌊(t - 3600 * ⌊t / 3600⌋) / 60⌋).toNat
    let secs : ℕ := (⌊t - 60 * ⌊t / 60⌋⌋).toNat
    if 0 < hrs then toString hrs ++ ":" ++ pad2 mins ++ ":" ++ pad2 secs
    else toString mins ++ ":" ++ pad2 secs

/-- Fixed nice-step candidate list of the tick generator (src/main.py
line 209): nice = [1,2,5,10,15,30,60,120,300,600]. -/
def nice : List ℚ := [1, 2, 5, 10, 15, 30, 60, 120, 300, 600]

/-- Left fold implementing the Python builtin min(list, key=abs distance):
scans the list keeping the current best, replacing it only on a strictly
smaller distance, so the first element attaining the minimum wins. -/
def pick_first_min (x : ℚ) : ℚ → List ℚ → ℚ
  | best, [] => best
  | best, e :: rest => pick_first_min x (if |e - x| < |best - x| then e else best) rest

/-- Snap to the nearest nice value (src/main.py line 210):
min(nice, key=lambda y: abs(y - x)), ties won by the first element in
list order. -/
def snap_nice (x : ℚ) : ℚ :=
  pick_first_min x 1 [2, 5, 10, 15, 30, 60, 120, 300, 600]

/-- Raw tick spacing before snapping (src/main.py lines 203-207):
max(1.0, target_px / max(1e-6, clip_w / duration)) with target_px = 120
and duration = max(1.0, clip_duration). -/
def raw_seconds_per_tick (clip_w d : ℚ) : ℚ :=
  let duration := max 1 d
  max 1 (120 / max (1/1000000) (clip_w / duration))

/-- Snapped tick spacing (src/main.py line 210). -/
def seconds_per_tick (clip_w d : ℚ) : ℚ :=
  snap_nice (raw_seconds_per_tick clip_w d)

/-- Tick timestamps of the paintEvent loop (src/main.py lines 212-220):
t = 0.0; while t <= duration + 0.0001: emit t; t += seconds_per_tick.
In exact arithmetic the loop emits k * step for k = 0, 1, ... as long as
k * step stays at or below the bound, which is the list below; the Python
literal 0.0001 is the rational 1/10000. -/
def tick_times (clip_w d : ℚ) : List ℚ :=
  let duration := max 1 d
  let step := seconds_per_tick clip_w d
  let bound := duration + 1/10000
  let n : ℕ := (⌊bound / step⌋).toNat + 1
  (List.range n).map (fun k : ℕ => (k : ℚ) * step)

/-- Marker invariant of the timeline: 0 ≤ S ≤ E ≤ D. -/
def MarkerInv (s : TimelineState) : Prop :=
  0 ≤ s.start_marker ∧ s.start_marker ≤ s.end_marker ∧ s.end_marker ≤ s.clip_duration

instance (s : TimelineState) : Decidable (MarkerInv s) := by
  unfold MarkerInv; infer_instance

/-- Playhead invariant of the timeline: 0 ≤ P ≤ D. -/
def PlayheadInv (s : TimelineState) : Prop :=
  0 ≤ s.playhead ∧ s.playhead ≤ s.clip_duration

instance (s : TimelineState) : Decidable (PlayheadInv s) := by
  unfold PlayheadInv; infer_instance

/-- A shared concrete timeline state for witnesses: width 800, duration
10, playhead 0, markers 0 and 10, paddings 50, no drag, zoom 120. -/
def baseTL : TimelineState :=
  { width := 800, clip_duration := 10, playhead := 0, start_marker := 0
  , end_marker := 10, left_padding := 50, right_padding := 50
  , dragging := none, drag_offset := 0, pixels_per_second := 120
  , min_pps := 40, max_pps := 1000 }

/-- C4: every marker mutation preserves 0 ≤ S ≤ E ≤ D. A move while
dragging the start marker yields S1 = min(t, E) with t the cursor time
pre-clamped to [0, D], so 0 ≤ S1 ≤ E with E unchanged; a move while
dragging the end marker yields E1 = max(t, S), so S ≤ E1 ≤ D with S
unchanged; loading a clip resets S = 0 and E = D. In particular S ≤ E
always holds afterwards. -/
theorem C4_marker_mutations (s : TimelineState) (x d : ℚ) (h : MarkerInv s) :
    MarkerInv (mouseMoveEvent s x).1 ∧
    (s.dragging = some Drag.start →
      (mouseMoveEvent s x).1.start_marker
        = min (max 0 (min s.clip_duration (x_to_seconds s (x - s.drag_offset)))) s.end_marker ∧
      0 ≤ (mouseMoveEvent s x).1.start_marker ∧
      (mouseMoveEvent s x).1.start_marker ≤ s.end_marker ∧
      (mouseMoveEvent s x).1.end_marker = s.end_marker) ∧
    (s.dragging = some Drag.end_ →
      (mouseMoveEvent s x).1.end_marker
        = max (max 0 (min s.clip_duration (x_to_seconds s (x - s.drag_offset)))) s.start_marker ∧
      s.start_marker ≤ (mouseMoveEvent s x).1.end_marker ∧
      (mouseMoveEvent s x).1.end_marker ≤ s.clip_duration ∧
      (mouseMoveEvent s x).1.start_marker = s.start_marker) ∧
    (set_clip_duration s d).start_marker = 0 ∧
    (set_clip_duration s d).end_marker = (set_clip_duration s d).clip_duration ∧
    MarkerInv (set_clip_duration s d) := by
  obtain ⟨h1, h2, h3⟩ := h
  have hD : (0 : ℚ) ≤ s.clip_duration := h1.trans (h2.trans h3)
  have hE : (0 : ℚ) ≤ s.end_marker := h1.trans h2
  have hsec : (0 : ℚ) ≤ max 0 (min s.clip_duration (x_to_seconds s (x - s.drag_offset))) :=
    le_max_left _ _
  have hsecD : max 0 (min s.clip_duration (x_to_seconds s (x - s.drag_offset)))
      ≤ s.clip_duration := max_le hD (min_le_left _ _)
  refine ⟨?_, ?_, ?_, ?_, ?_, ?_⟩
  · rcases hd : s.dragging with _ | d0
    · simpa [mouseMoveEvent, hd, MarkerInv] using ⟨h1, h2, h3⟩
    · cases d0 <;>
        simp only [mouseMoveEvent, hd, MarkerInv] <;>
        refine ⟨?_, ?_, ?_⟩
      · exact le_min hsec hE
      · exact min_le_right _ _
      · exact h3
      · exact h1
      · exact le_max_right _ _
      · exact max_le hsecD (h2.trans h3)
      · exact h1
      · exact h2
      · exact h3
  · intro hd
    refine ⟨by simp only [mouseMoveEvent, hd], ?_, ?_, by simp only [mouseMoveEvent, hd]⟩
    · simp only [mouseMoveEvent, hd]
      exact le_min hsec hE
    · simp only [mouseMoveEvent, hd]
      exact min_le_right _ _
  · intro hd
    refine ⟨by simp only [mouseMoveEvent, hd], ?_, ?_, by simp only [mouseMoveEvent, hd]⟩
    · simp only [mouseMoveEvent, hd]
      exact le_max_right _ _
    · simp only [mouseMoveEvent, hd]
      exact max_le hsecD (h2.trans h3)
  · rfl
  · rfl
  · refine ⟨le_refl _, le_max_left _ _, le_refl _⟩

/-- C4 witness: a concrete drag of the start marker on a loaded 10-second
clip, and a concrete clip load, both checked through C4_marker_mutations. -/
theorem C4_marker_mutations_witness :
    MarkerInv { baseTL with dragging := some Drag.start } ∧
    MarkerInv (mouseMoveEvent { baseTL with dragging := some Drag.start } 100).1 ∧
    MarkerInv (set_clip_duration { baseTL with dragging := some Drag.start } 7) :=
  ⟨by decide,
   (C4_marker_mutations { baseTL with dragging := some Drag.start } 100 7 (by decide)).1,
   (C4_marker_mutations { baseTL with dragging := some Drag.start } 100 7 (by decide)).2.2.2.2.2⟩

/-- C5: a press at pixel x hit-tests with radius 10 in priority order
start marker, end marker, playhead; the first hit enters the matching
dragging state recording offset x minus the matched pixel, emits nothing
and leaves the playhead alone; on no hit the press is a direct seek that
sets the playhead to x_to_seconds x, emits a seek request, and leaves the
dragging state unchanged. With S = P the start test fires first, so the
press yields the start drag, not the playhead drag. -/
theorem C5_press_hit_priority (s : TimelineState) (x : ℚ) :
    (|x - seconds_to_x s s.start_marker| ≤ 10 →
       (mousePressEvent s x).1.dragging = some Drag.start ∧
       (mousePressEvent s x).1.drag_offset = x - seconds_to_x s s.start_marker ∧
       (mousePressEvent s x).2 = none ∧
       (mousePressEvent s x).1.playhead = s.playhead) ∧
    (¬ |x - seconds_to_x s s.start_marker| ≤ 10 →
     |x - seconds_to_x s s.end_marker| ≤ 10 →
       (mousePressEvent s x).1.dragging = some Drag.end_ ∧
       (mousePressEvent s x).1.drag_offset = x - seconds_to_x s s.end_marker ∧
       (mousePressEvent s x).2 = none ∧
       (mousePressEvent s x).1.playhead = s.playhead) ∧
    (¬ |x - seconds_to_x s s.start_marker| ≤ 10 →
     ¬ |x - seconds_to_x s s.end_marker| ≤ 10 →
     |x - seconds_to_x s s.playhead| ≤ 10 →
       (mousePressEvent s x).1.dragging = some Drag.playhead ∧
       (mousePressEvent s x).1.drag_offset = x - seconds_to_x s s.playhead ∧
       (mousePressEvent s x).2 = none ∧
       (mousePressEvent s x).1.playhead = s.playhead) ∧
    (¬ |x - seconds_to_x s s.start_marker| ≤ 10 →
     ¬ |x - seconds_to_x s s.end_marker| ≤ 10 →
     ¬ |x - seconds_to_x s s.playhead| ≤ 10 →
       (mousePressEvent s x).1.playhead = x_to_seconds s x ∧
       (mousePressEvent s x).2 = some (TEvent.seek_requested (x_to_seconds s x)) ∧
       (mousePressEvent s x).1.dragging = s.dragging) := by
  refine ⟨fun h1 => ?_, fun h1 h2 => ?_, fun h1 h2 h3 => ?_, fun h1 h2 h3 => ?_⟩
  · simp [mousePressEvent, h1]
  · simp [mousePressEvent, h1, h2]
  · simp [mousePressEvent, h1, h2, h3]
  · simp [mousePressEvent, h1, h2, h3]

/-- C5 witness: on baseTL the start marker and the playhead coincide at
time 0 (pixel 50), and a press exactly there yields the start drag. -/
theorem C5_press_hit_priority_witness :
    |(50 : ℚ) - seconds_to_x baseTL baseTL.start_marker| ≤ 10 ∧
    baseTL.start_marker = baseTL.playhead ∧
    (mousePressEvent baseTL 50).1.dragging = some Drag.start :=
  ⟨by norm_num [seconds_to_x, usableWidth, baseTL], by decide,
   ((C5_press_hit_priority baseTL 50).1
      (by norm_num [seconds_to_x, usableWidth, baseTL])).1⟩

/-- C7: both zoom entry points mutate only the zoom. A wheel step with
positive delta multiplies pixels-per-second by 23/20 clamping at max_pps,
a step with non-positive delta divides by 23/20 clamping at min_pps, and
the result stays inside [min_pps, max_pps] whenever it started there;
the slider maps its 0..100 value linearly onto [40, 400]; neither path
changes the markers or the playhead. -/
theorem C7_zoom_paths (s : TimelineState) (delta : ℚ) (e : EditorState) (v : ℚ)
    (h0 : 0 ≤ s.min_pps) (h1 : s.min_pps ≤ s.pixels_per_second)
    (h2 : s.pixels_per_second ≤ s.max_pps) :
    (0 < delta →
      (wheelEvent s delta).pixels_per_second = min s.max_pps (s.pixels_per_second * (23/20))) ∧
    (delta ≤ 0 →
      (wheelEvent s delta).pixels_per_second = max s.min_pps (s.pixels_per_second / (23/20))) ∧
    s.min_pps ≤ (wheelEvent s delta).pixels_per_second ∧
    (wheelEvent s delta).pixels_per_second ≤ s.max_pps ∧
    (wheelEvent s delta).start_marker = s.start_marker ∧
    (wheelEvent s delta).end_marker = s.end_marker ∧
    (wheelEvent s delta).playhead = s.playhead ∧
    (zoom_changed e v).timeline.pixels_per_second = 40 + (400 - 40) * (v / 100) ∧
    (zoom_changed e v).timeline.start_marker = e.timeline.start_marker ∧
    (zoom_changed e v).timeline.end_marker = e.timeline.end_marker ∧
    (zoom_changed e v).timeline.playhead = e.timeline.playhead := by
  have hpps : (0 : ℚ) ≤ s.pixels_per_second := h0.trans h1
  have hmul : s.pixels_per_second ≤ s.pixels_per_second * (23/20) := by linarith
  have hdiv : s.pixels_per_second / (23/20) ≤ s.pixels_per_second := by
    rw [div_le_iff₀ (by norm_num : (0:ℚ) < 23/20)]; linarith
  refine ⟨fun hd => ?_, fun hd => ?_, ?_, ?_, ?_, ?_, ?_, ?_, ?_, ?_, ?_⟩
  · simp [wheelEvent, hd]
  · simp [wheelEvent, not_lt.mpr hd]
  · by_cases hd : 0 < delta
    · simp only [wheelEvent, if_pos hd]
      exact le_min (h1.trans h2) (h1.trans hmul)
    · simp only [wheelEvent, if_neg hd]
      exact le_max_left _ _
  · by_cases hd : 0 < delta
    · simp only [wheelEvent, if_pos hd]
      exact min_le_left _ _
    · simp only [wheelEvent, if_neg hd]
      exact max_le (h1.trans h2) (hdiv.trans h2)
  · by_cases hd : 0 < delta <;> simp [wheelEvent, hd]
  · by_cases hd : 0 < delta <;> simp [wheelEvent, hd]
  · by_cases hd : 0 < delta <;> simp [wheelEvent, hd]
  · simp [zoom_changed]
  · simp [zoom_changed]
  · simp [zoom_changed]
  · simp [zoom_changed]

/-- C7 witness: a positive wheel step on baseTL (zoom 120, bounds 40 and
1000) and a slider move to 28 on a concrete editor state, checked through
C7_zoom_paths. -/
theorem C7_zoom_paths_witness :
    (0 : ℚ) ≤ baseTL.min_pps ∧ baseTL.min_pps ≤ baseTL.pixels_per_second ∧
    baseTL.pixels_per_second ≤ baseTL.max_pps ∧
    (wheelEvent baseTL 120).pixels_per_second
      = min baseTL.max_pps (baseTL.pixels_per_second * (23/20)) ∧
    (zoom_changed ⟨some 10, false, 0, none, baseTL⟩ 28).timeline.pixels_per_second
      = 40 + (400 - 40) * ((28 : ℚ) / 100) :=
  ⟨by decide, by decide, by decide,
   (C7_zoom_paths baseTL 120 ⟨some 10, false, 0, none, baseTL⟩ 28
      (by decide) (by decide) (by decide)).1 (by decide),
   (C7_zoom_paths baseTL 120 ⟨some 10, false, 0, none, baseTL⟩ 28
      (by decide) (by decide) (by decide)).2.2.2.2.2.2.2.1⟩

/-- C9: an export attempt with the marker range E - S below the 1/100
second minimum is rejected as an invalid range with no subclip or export
call issued (the result carries no exported constructor), and the editor
state, clip and markers included, is returned unchanged. -/
theorem C9_export_invalid_range (e : EditorState) (d : ℚ) (save_ok : Bool)
    (hc : e.clip = some d)
    (h : e.timeline.end_marker - e.timeline.start_marker < 1/100) :
    (export_trimmed e save_ok).2 = ExportResult.invalid_range ∧
    (export_trimmed e save_ok).1 = e := by
  simp only [export_trimmed, hc]
  rw [if_pos (le_of_lt h)]
  exact ⟨rfl, rfl⟩

/-- C9 witness: markers S = 1 and E = 1.005 (delta 1/200 below 1/100) on
a loaded 10-second clip are rejected with the state unchanged. -/
theorem C9_export_invalid_range_witness :
    (⟨some 10, false, 0, none,
        { baseTL with start_marker := 1, end_marker := 1005/1000 }⟩ : EditorState).clip
      = some 10 ∧
    ({ baseTL with start_marker := 1, end_marker := 1005/1000 }).end_marker
      - ({ baseTL with start_marker := 1, end_marker := 1005/1000 }).start_marker < 1/100 ∧
    (export_trimmed
        ⟨some 10, false, 0, none,
          { baseTL with start_marker := 1, end_marker := 1005/1000 }⟩ true).2
      = ExportResult.invalid_range :=
  ⟨rfl, by norm_num [baseTL],
   (C9_export_invalid_range
      ⟨some 10, false, 0, none,
        { baseTL with start_marker := 1, end_marker := 1005/1000 }⟩ 10 true rfl
      (by norm_num [baseTL])).1⟩

/-- A shared concrete editor state in playing mode: 10-second clip,
playback anchored at offset 2 and wall-clock instant 0. -/
def playingEd : EditorState :=
  { clip := some 10, is_playing := true, play_offset := 2
  , play_start_sys := some 0, timeline := baseTL }

/-- C6: a seek to time sec in [0, D] issued while playing re-anchors the
playback clock to offset sec at startInstant now, so the derived position
at any later query instant now2 equals sec + (now2 - now). -/
theorem C6_seek_while_playing (e : EditorState) (d sec now now2 : ℚ)
    (hc : e.clip = some d) (hp : e.is_playing = true)
    (h0 : 0 ≤ sec) (h1 : sec ≤ d) :
    (seek_to e sec now).play_offset = sec ∧
    (seek_to e sec now).play_start_sys = some now ∧
    (seek_to e sec now).timeline.playhead = sec ∧
    derived_position (seek_to e sec now) now2 = sec + (now2 - now) := by
  have hclamp : max 0 (min (clipDuration e) sec) = sec := by
    rw [show clipDuration e = d by simp [clipDuration, hc], min_eq_right h1, max_eq_right h0]
  simp [seek_to, hclamp, hp, derived_position]

/-- C6 witness: playing with offset 2 anchored at instant 0, a seek to
7 at instant 1 makes the derived position at instant 1.001 equal 7.001,
not 6.001, checked through C6_seek_while_playing. -/
theorem C6_seek_while_playing_witness :
    playingEd.clip = some 10 ∧ playingEd.is_playing = true ∧
    derived_position (seek_to playingEd 7 1) (1001/1000) = 7 + ((1001/1000 : ℚ) - 1) ∧
    (7 : ℚ) + ((1001/1000 : ℚ) - 1) = 7001/1000 ∧ ((7001 : ℚ)/1000) ≠ 6001/1000 :=
  ⟨rfl, rfl,
   (C6_seek_while_playing playingEd 10 7 1 (1001/1000) rfl rfl (by norm_num) (by norm_num)).2.2.2,
   by norm_num, by norm_num⟩

/-- C1 amended: when the playback clock ticks while playing and the
derived position offset + (now - startInstant) is at or past
min(D, E), playback transitions to stopped, but the playhead is reset to
0 by the stop routine rather than clamped to min(D, E); starting at
offset 0 with E = 5 ≤ D, after elapsed time at least 5 the state is
stopped with playhead 0. The transition to stopped is as claimed; only
the final playhead value differs from the claim. -/
theorem C1_amended_auto_stop (e : EditorState) (d now t0 : ℚ)
    (hc : e.clip = some d) (hp : e.is_playing = true)
    (hs : e.play_start_sys = some t0)
    (hge : min d e.timeline.end_marker ≤ e.play_offset + (now - t0)) :
    (on_timer e now).is_playing = false ∧
    (on_timer e now).timeline.playhead = 0 ∧
    (on_timer e now).play_offset = 0 ∧
    (on_timer e now).play_start_sys = none := by
  have hred : on_timer e now = stop e := by
    simp only [on_timer, hc, hp, hs]
    exact if_pos hge
  rw [hred]
  simp [stop, hc]

/-- C1 counterexample state: 10-second clip, end marker 5, playback from
offset 0 anchored at instant 0. -/
def C1ex : EditorState :=
  { clip := some 10, is_playing := true, play_offset := 0
  , play_start_sys := some 0, timeline := { baseTL with end_marker := 5 } }

/-- C1 counterexample: on C1ex a clock tick at instant 6 has derived
position 6 at or past min(D, E) = 5, and the code transitions to stopped
with playhead 0, not 5 as the claim states. -/
theorem C1_auto_stop_counterexample :
    (on_timer C1ex 6).is_playing = false ∧
    (on_timer C1ex 6).timeline.playhead = 0 ∧
    (on_timer C1ex 6).timeline.playhead ≠ 5 := by
  have hge : min (10 : ℚ) (C1ex.timeline.end_marker) ≤ C1ex.play_offset + (6 - 0) := by
    norm_num [C1ex, baseTL]
  refine ⟨?_, ?_, ?_⟩ <;>
    · show _
      simp only [on_timer, C1ex, if_pos, stop]
      norm_num [baseTL]

/-- C1 amended witness: the amended statement applied to C1ex at instant
6, all hypotheses discharged concretely. -/
theorem C1_amended_auto_stop_witness :
    C1ex.clip = some 10 ∧ C1ex.is_playing = true ∧ C1ex.play_start_sys = some 0 ∧
    min (10:ℚ) C1ex.timeline.end_marker ≤ C1ex.play_offset + (6 - 0) ∧
    (on_timer C1ex 6).is_playing = false ∧
    (on_timer C1ex 6).timeline.playhead = 0 :=
  ⟨rfl, rfl, rfl, by norm_num [C1ex, baseTL],
   (C1_amended_auto_stop C1ex 10 6 0 rfl rfl rfl (by norm_num [C1ex, baseTL])).1,
   (C1_amended_auto_stop C1ex 10 6 0 rfl rfl rfl (by norm_num [C1ex, baseTL])).2.1⟩


/-- x_to_seconds always returns a nonnegative time: both branches clamp
with max 0. -/
theorem x_to_seconds_nonneg (s : TimelineState) (x : ℚ) : 0 ≤ x_to_seconds s x := by
  simp only [x_to_seconds]
  split_ifs <;> exact le_max_left _ _

/-- x_to_seconds never exceeds a nonnegative clip duration: both branches
clamp with min clip_duration. -/
theorem x_to_seconds_le_duration (s : TimelineState) (x : ℚ)
    (h : 0 ≤ s.clip_duration) : x_to_seconds s x ≤ s.clip_duration := by
  simp only [x_to_seconds]
  split_ifs <;> exact max_le h (min_le_left _ _)

/-- Field accounting for seek_to: the playhead becomes the seek time
clamped to [0, clip duration], and the clip and the timeline duration are
untouched. -/
theorem seek_to_fields (e : EditorState) (d sec now : ℚ) (hc : e.clip = some d) :
    (seek_to e sec now).timeline.playhead = max 0 (min d sec) ∧
    (seek_to e sec now).timeline.clip_duration = e.timeline.clip_duration ∧
    (seek_to e sec now).clip = e.clip := by
  have hcd : clipDuration e = d := by simp [clipDuration, hc]
  simp only [seek_to, hcd]
  split_ifs <;> exact ⟨rfl, rfl, rfl⟩

/-- Playhead clamping of on_range_changed: with the new markers
s2 ≤ e2 inside [0, d], the playhead ends at max s2 (min e2 P), its old
value clamped to the nearest bound, and the timeline duration is
untouched. -/
theorem on_range_changed_playhead (e : EditorState) (d s2 e2 now : ℚ)
    (hc : e.clip = some d)
    (hs0 : 0 ≤ s2) (hse : s2 ≤ e2) (he2d : e2 ≤ d) :
    (on_range_changed e s2 e2 now).timeline.playhead
      = max s2 (min e2 e.timeline.playhead) ∧
    (on_range_changed e s2 e2 now).timeline.clip_duration
      = e.timeline.clip_duration := by
  have he20 : (0 : ℚ) ≤ e2 := hs0.trans hse
  have hs2d : s2 ≤ d := hse.trans he2d
  simp only [on_range_changed]
  by_cases hlt : e.timeline.playhead < s2
  · obtain ⟨hpl, hdur, _⟩ := seek_to_fields
      { e with timeline := { e.timeline with start_marker := s2, end_marker := e2 } }
      d s2 now hc
    have hval : max 0 (min d s2) = s2 := by
      rw [min_eq_right hs2d, max_eq_right hs0]
    rw [if_pos hlt, if_neg (by rw [hpl, hval]; exact not_lt.mpr hse)]
    constructor
    · rw [hpl, hval, min_eq_right (hlt.le.trans hse), max_eq_left hlt.le]
    · exact hdur
  · rw [if_neg hlt]
    have hs2P : s2 ≤ e.timeline.playhead := not_lt.mp hlt
    by_cases hlt2 : e2 < e.timeline.playhead
    · obtain ⟨hpl, hdur, _⟩ := seek_to_fields
        { e with timeline := { e.timeline with start_marker := s2, end_marker := e2 } }
        d e2 now hc
      rw [if_pos hlt2]
      constructor
      · rw [hpl, min_eq_right he2d, max_eq_right he20,
          min_eq_left hlt2.le, max_eq_right hse]
      · exact hdur
    · rw [if_neg hlt2]
      constructor
      · rw [min_eq_right (not_lt.mp hlt2), max_eq_right hs2P]
      · rfl

/-- C2 counterexample state: 5-second clip playing from offset 0 anchored
at the nonzero wall-clock instant 1 (so the falsy-zero branch of the
Python or-idiom in _pause_playback is not taken), markers 0 and 5. -/
def C2ex : EditorState :=
  { clip := some 5, is_playing := true, play_offset := 0
  , play_start_sys := some 1
  , timeline := { baseTL with clip_duration := 5, end_marker := 5 } }

/-- C2 counterexample: pausing C2ex at wall-clock instant 11 reads the
anchor 1, computes elapsed 10 and stores the unclamped position 10 into
the playhead, which exceeds the clip duration 5, so the invariant
0 ≤ P ≤ D does not survive every operation of the claimed list: pause
violates it. -/
theorem C2_playhead_counterexample :
    C2ex.timeline.clip_duration = 5 ∧
    (pause_playback C2ex 11).timeline.playhead = 10 ∧
    ¬ ((pause_playback C2ex 11).timeline.playhead
        ≤ (pause_playback C2ex 11).timeline.clip_duration) := by
  norm_num [pause_playback, C2ex, baseTL]

/-- C2 amended: after every operation of the timeline core except pause
(press, move, release, seek, play, stop, clock tick, range change) the
playhead P satisfies 0 ≤ P ≤ D, and a range change to markers s2 ≤ e2
inside [0, D] clamps an out-of-range playhead to the nearest bound,
max s2 (min e2 P), not back to s2. Pause stores the unclamped position
offset + (now - anchor) into P (with a zero anchor treated as absent by
the Python or-idiom, so elapsed 0 and P = offset), for which only
0 ≤ P is guaranteed; the counterexample shows P ≤ D can fail there. -/
theorem C2_amended_playhead_inv (e : EditorState) (d now t0 x sec s2 e2 : ℚ)
    (hc : e.clip = some d) (hd : e.timeline.clip_duration = d)
    (hph : PlayheadInv e.timeline)
    (hoff : 0 ≤ e.play_offset) (hnow : t0 ≤ now) :
    PlayheadInv (mousePressEvent e.timeline x).1 ∧
    PlayheadInv (mouseMoveEvent e.timeline x).1 ∧
    PlayheadInv (mouseReleaseEvent e.timeline) ∧
    PlayheadInv (seek_to e sec now).timeline ∧
    PlayheadInv (start_playback_at e sec now).timeline ∧
    PlayheadInv (stop e).timeline ∧
    (e.play_start_sys = some t0 → PlayheadInv (on_timer e now).timeline) ∧
    (0 ≤ s2 → s2 ≤ e2 → e2 ≤ d →
      (on_range_changed e s2 e2 now).timeline.playhead
        = max s2 (min e2 e.timeline.playhead) ∧
      PlayheadInv (on_range_changed e s2 e2 now).timeline) ∧
    (e.play_start_sys = some t0 → 0 ≤ (pause_playback e now).timeline.playhead) := by
  obtain ⟨hph0, hphD⟩ := hph
  have hD0 : (0 : ℚ) ≤ e.timeline.clip_duration := hph0.trans hphD
  have hd0 : (0 : ℚ) ≤ d := hd ▸ hD0
  refine ⟨?_, ?_, ?_, ?_, ?_, ?_, ?_, ?_, ?_⟩
  · simp only [mousePressEvent]
    split_ifs
    · exact ⟨hph0, hphD⟩
    · exact ⟨hph0, hphD⟩
    · exact ⟨hph0, hphD⟩
    · exact ⟨x_to_seconds_nonneg _ _, x_to_seconds_le_duration _ _ hD0⟩
  · rcases hdr : e.timeline.dragging with _ | d0
    · simp only [mouseMoveEvent, hdr]
      exact ⟨hph0, hphD⟩
    · cases d0 <;> simp only [mouseMoveEvent, hdr]
      · exact ⟨hph0, hphD⟩
      · exact ⟨hph0, hphD⟩
      · exact ⟨le_max_left _ _, max_le hD0 (min_le_left _ _)⟩
  · exact ⟨hph0, hphD⟩
  · obtain ⟨hpl, hdur, _⟩ := seek_to_fields e d sec now hc
    refine ⟨?_, ?_⟩
    · rw [hpl]; exact le_max_left _ _
    · rw [hpl, hdur, hd]
      exact max_le hd0 (min_le_left _ _)
  · exact ⟨hph0, hphD⟩
  · simp only [stop, hc]
    exact ⟨le_refl _, hD0⟩
  · intro hs
    by_cases hp : e.is_playing
    · simp only [on_timer, hc, hp, hs, if_true]
      by_cases hge : min d e.timeline.end_marker ≤ e.play_offset + (now - t0)
      · rw [if_pos hge]
        simp only [stop, hc]
        exact ⟨le_refl _, hD0⟩
      · rw [if_neg hge]
        refine ⟨add_nonneg hoff (sub_nonneg.mpr hnow), ?_⟩
        calc e.play_offset + (now - t0)
            ≤ min d e.timeline.end_marker := (not_le.mp hge).le
          _ ≤ d := min_le_left _ _
          _ = e.timeline.clip_duration := hd.symm
    · simp only [Bool.not_eq_true] at hp
      simp only [on_timer, hc, hp, Bool.false_eq_true, if_false]
      exact ⟨hph0, hphD⟩
  · intro hs0 hse he2d
    obtain ⟨hpl, hdur⟩ := on_range_changed_playhead e d s2 e2 now hc hs0 hse he2d
    refine ⟨hpl, ?_, ?_⟩
    · rw [hpl]
      exact le_max_of_le_left hs0
    · rw [hpl, hdur, hd]
      exact max_le (hse.trans he2d) ((min_le_left _ _).trans he2d)
  · intro hs
    by_cases hp : e.is_playing
    · by_cases ht0 : t0 = 0
      · simp only [pause_playback, hp, if_true, hs, if_pos ht0]
        simpa using hoff
      · simp only [pause_playback, hp, if_true, hs, if_neg ht0]
        exact add_nonneg hoff (sub_nonneg.mpr hnow)
    · simp only [Bool.not_eq_true] at hp
      simp only [pause_playback, hp, Bool.false_eq_true, if_false]
      exact hph0

/-- C2 amended witness: the amended statement applied to the concrete
playing editor state (10-second clip, playhead 0) with a seek to 4, a
range change to [1, 6] and a pause, hypotheses discharged concretely. -/
theorem C2_amended_playhead_inv_witness :
    PlayheadInv playingEd.timeline ∧
    PlayheadInv (seek_to playingEd 4 1).timeline ∧
    (on_range_changed playingEd 1 6 1).timeline.playhead
      = max 1 (min 6 playingEd.timeline.playhead) ∧
    0 ≤ (pause_playback playingEd 1).timeline.playhead :=
  ⟨by decide,
   (C2_amended_playhead_inv playingEd 10 1 0 300 4 1 6 rfl rfl (by decide)
      (by norm_num [playingEd]) (by norm_num)).2.2.2.1,
   ((C2_amended_playhead_inv playingEd 10 1 0 300 4 1 6 rfl rfl (by decide)
      (by norm_num [playingEd]) (by norm_num)).2.2.2.2.2.2.2.1
      (by norm_num) (by norm_num) (by norm_num)).1,
   (C2_amended_playhead_inv playingEd 10 1 0 300 4 1 6 rfl rfl (by decide)
      (by norm_num [playingEd]) (by norm_num)).2.2.2.2.2.2.2.2 rfl⟩

/-- C3 amended: for every t in [0, D] the pixel round trip is exact,
x_to_seconds (seconds_to_x t) = t, in both the fit branch
(pps * max(1, D) ≤ usable width) and the scroll branch, for any widget
width and paddings, provided the effective scale clears the 1/1000000
guard of x_to_seconds: zoom at least 1/1000000 (the app keeps it in
[40, 1000]) and duration at most 10^7 seconds (so the scroll scale
usable/D, with usable at least 10, also clears the guard). Exact
equality is within any pixel-to-time conversion error bound. Without
these bounds the claim fails: when the effective scale falls below the
guard, x_to_seconds divides by 1/1000000 instead of the scale and the
round-trip error exceeds any one-pixel bound (see the counterexample). -/
theorem C3_round_trip (s : TimelineState) (t : ℚ)
    (h0 : 0 ≤ t) (h1 : t ≤ s.clip_duration)
    (hpps : 1/1000000 ≤ s.pixels_per_second)
    (hD : s.clip_duration ≤ 10000000) :
    x_to_seconds s (seconds_to_x s t) = t := by
  have husable : (10 : ℚ) ≤ usableWidth s := le_max_left _ _
  have hclamp : max 0 (min s.clip_duration t) = t := by
    rw [min_eq_right h1, max_eq_right h0]
  have hppspos : (0 : ℚ) < s.pixels_per_second := lt_of_lt_of_le (by norm_num) hpps
  by_cases hfit : s.pixels_per_second * max 1 s.clip_duration ≤ usableWidth s
  · have hsx : seconds_to_x s t
        = s.left_padding + (usableWidth s - s.pixels_per_second * max 1 s.clip_duration) / 2
          + t * s.pixels_per_second := by
      simp only [seconds_to_x]
      rw [if_pos hfit]
    have hxs : x_to_seconds s (seconds_to_x s t)
        = max 0 (min s.clip_duration ((seconds_to_x s t
            - (s.left_padding
               + (usableWidth s - s.pixels_per_second * max 1 s.clip_duration) / 2))
          / max (1/1000000) s.pixels_per_second)) := by
      simp only [x_to_seconds]
      rw [if_pos hfit]
    have harg : s.left_padding
          + (usableWidth s - s.pixels_per_second * max 1 s.clip_duration) / 2
          + t * s.pixels_per_second
          - (s.left_padding
             + (usableWidth s - s.pixels_per_second * max 1 s.clip_duration) / 2)
        = t * s.pixels_per_second := by ring
    rw [hxs, hsx, max_eq_right hpps, harg, mul_div_cancel_right₀ t hppspos.ne']
    exact hclamp
  · by_cases hDpos : 0 < s.clip_duration
    · have hscalepos : (0 : ℚ) < usableWidth s / s.clip_duration :=
        div_pos (lt_of_lt_of_le (by norm_num) husable) hDpos
      have hscale6 : (1/1000000 : ℚ) ≤ usableWidth s / s.clip_duration := by
        calc (1/1000000 : ℚ) = 10 / 10000000 := by norm_num
          _ ≤ usableWidth s / s.clip_duration :=
              div_le_div₀ (by linarith) husable hDpos hD
      have hsx : seconds_to_x s t
          = s.left_padding + t * (usableWidth s / s.clip_duration) := by
        simp only [seconds_to_x]
        rw [if_neg hfit, if_pos hDpos]
      have hxs : x_to_seconds s (seconds_to_x s t)
          = max 0 (min s.clip_duration ((seconds_to_x s t - s.left_padding)
              / max (1/1000000) (usableWidth s / s.clip_duration))) := by
        simp only [x_to_seconds]
        rw [if_neg hfit, if_pos hDpos]
      have harg : s.left_padding + t * (usableWidth s / s.clip_duration) - s.left_padding
          = t * (usableWidth s / s.clip_duration) := by ring
      rw [hxs, hsx, max_eq_right hscale6, harg,
        mul_div_cancel_right₀ t hscalepos.ne']
      exact hclamp
    · have hD0 : s.clip_duration = 0 := le_antisymm (not_lt.mp hDpos) (h0.trans h1)
      have ht0 : t = 0 := le_antisymm (hD0 ▸ h1) h0
      have hsx : seconds_to_x s t = s.left_padding + t * (usableWidth s / 1) := by
        simp only [seconds_to_x]
        rw [if_neg hfit, if_neg hDpos]
      have hxs : x_to_seconds s (seconds_to_x s t)
          = max 0 (min s.clip_duration ((seconds_to_x s t - s.left_padding)
              / max (1/1000000) (usableWidth s / 1))) := by
        simp only [x_to_seconds]
        rw [if_neg hfit, if_neg hDpos]
      rw [hxs, hsx, ht0, hD0]
      simp

/-- C3 witness: the round trip at t = 3 on baseTL (duration 10, zoom 120,
width 800), hypotheses discharged concretely. -/
theorem C3_round_trip_witness :
    (0 : ℚ) ≤ 3 ∧ (3 : ℚ) ≤ baseTL.clip_duration ∧
    (1/1000000 : ℚ) ≤ baseTL.pixels_per_second ∧
    baseTL.clip_duration ≤ 10000000 ∧
    x_to_seconds baseTL (seconds_to_x baseTL 3) = 3 :=
  ⟨by norm_num, by norm_num [baseTL], by norm_num [baseTL], by norm_num [baseTL],
   C3_round_trip baseTL 3 (by norm_num) (by norm_num [baseTL])
     (by norm_num [baseTL]) (by norm_num [baseTL])⟩

/-- C3 counterexample state: width 800 (usable 700), paddings 50, zoom
40 (the minimum the app allows) and a clip duration of 10^10 seconds, a
scroll-mode state whose scale 700 / 10^10 = 7/100000000 falls below the
1/1000000 guard of x_to_seconds. -/
def C3ex : TimelineState :=
  { baseTL with clip_duration := 10000000000, pixels_per_second := 40 }

/-- C3 counterexample: on C3ex the round trip at t = D = 10^10 returns
700000000: seconds_to_x maps t to pixel 750 with the true scale
7/100000000, but x_to_seconds divides by the guard 1/1000000 instead,
and the error 10^10 - 7 * 10^8 exceeds the one-pixel-to-time bound of
this state, 10^10 / 700 seconds per pixel (and a fortiori any smaller
pixel bound), so the round trip does not hold for every zoom and
duration as the claim states. -/
theorem C3_round_trip_counterexample :
    x_to_seconds C3ex (seconds_to_x C3ex 10000000000) = 700000000 ∧
    x_to_seconds C3ex (seconds_to_x C3ex 10000000000) ≠ 10000000000 ∧
    (10000000000 : ℚ) - 700000000 > 10000000000 / 700 := by
  norm_num [x_to_seconds, seconds_to_x, usableWidth, C3ex, baseTL, max_def, min_def]

/-- Hour component of sec_to_hms as natural arithmetic on the floor of t:
int(t // 3600) = ⌊t⌋₊ / 3600 for nonnegative t. -/
theorem sec_to_hms_hrs_eq (t : ℚ) : (⌊t / 3600⌋).toNat = ⌊t⌋₊ / 3600 := by
  rw [Int.floor_toNat, Nat.floor_div_ofNat]

/-- Minute component of sec_to_hms as natural arithmetic on the floor of
t: int((t % 3600) // 60) = ⌊t⌋₊ % 3600 / 60 for nonnegative t. -/
theorem sec_to_hms_mins_eq (t : ℚ) (ht : 0 ≤ t) :
    (⌊(t - 3600 * ⌊t / 3600⌋) / 60⌋).toNat = ⌊t⌋₊ % 3600 / 60 := by
  have f60 : ⌊t / 60⌋ = ((⌊t⌋₊ / 60 : ℕ) : ℤ) := by
    rw [← Int.natCast_floor_eq_floor (div_nonneg ht (by norm_num)), Nat.floor_div_ofNat]
  have f3600 : ⌊t / 3600⌋ = ((⌊t⌋₊ / 3600 : ℕ) : ℤ) := by
    rw [← Int.natCast_floor_eq_floor (div_nonneg ht (by norm_num)), Nat.floor_div_ofNat]
  have e1 : (t - 3600 * (⌊t / 3600⌋ : ℚ)) / 60 = t / 60 - ((60 * ⌊t / 3600⌋ : ℤ) : ℚ) := by
    push_cast
    ring
  rw [e1, Int.floor_sub_int, f60, f3600]
  omega

/-- Second component of sec_to_hms as natural arithmetic on the floor of
t: int(t % 60) = ⌊t⌋₊ % 60 for nonnegative t. -/
theorem sec_to_hms_secs_eq (t : ℚ) (ht : 0 ≤ t) :
    (⌊t - 60 * ⌊t / 60⌋⌋).toNat = ⌊t⌋₊ % 60 := by
  have f60 : ⌊t / 60⌋ = ((⌊t⌋₊ / 60 : ℕ) : ℤ) := by
    rw [← Int.natCast_floor_eq_floor (div_nonneg ht (by norm_num)), Nat.floor_div_ofNat]
  have fN : ⌊t⌋ = ((⌊t⌋₊ : ℕ) : ℤ) := (Int.natCast_floor_eq_floor ht).symm
  have e2 : t - 60 * (⌊t / 60⌋ : ℚ) = t - ((60 * ⌊t / 60⌋ : ℤ) : ℚ) := by
    push_cast
    ring
  rw [e2, Int.floor_sub_int, fN, f60]
  omega

/-- C8: sec_to_hms formats a time as H:MM:SS exactly when t ≥ 3600 and as
M:SS otherwise, with minutes and seconds zero-padded to two digits and
summing with the hours back to the floor of t; None and negative inputs
format as 0:00; and the four concrete examples of the spec hold. -/
theorem C8_sec_to_hms :
    sec_to_hms none = "0:00" ∧
    sec_to_hms (some 0) = "0:00" ∧
    sec_to_hms (some 65) = "1:05" ∧
    sec_to_hms (some 3661) = "1:01:01" ∧
    (∀ t : ℚ, t < 0 → sec_to_hms (some t) = "0:00") ∧
    (∀ t : ℚ, 3600 ≤ t → ∃ h m s2 : ℕ, 0 < h ∧ m < 60 ∧ s2 < 60 ∧
       ((h * 3600 + m * 60 + s2 : ℕ) : ℤ) = ⌊t⌋ ∧
       sec_to_hms (some t) = toString h ++ ":" ++ pad2 m ++ ":" ++ pad2 s2) ∧
    (∀ t : ℚ, 0 ≤ t → t < 3600 → ∃ m s2 : ℕ, m < 60 ∧ s2 < 60 ∧
       ((m * 60 + s2 : ℕ) : ℤ) = ⌊t⌋ ∧
       sec_to_hms (some t) = toString m ++ ":" ++ pad2 s2) := by
  refine ⟨rfl, ?_, ?_, ?_, ?_, ?_, ?_⟩
  · simp only [sec_to_hms]
    norm_num
    rfl
  · simp only [sec_to_hms]
    norm_num
    rfl
  · simp only [sec_to_hms]
    norm_num
    rfl
  · intro t hneg
    simp only [sec_to_hms]
    rw [max_eq_left (le_of_lt hneg)]
    norm_num
    rfl
  · intro t h3600
    have ht : (0 : ℚ) ≤ t := le_trans (by norm_num) h3600
    have hn : 3600 ≤ ⌊t⌋₊ := Nat.le_floor (by exact_mod_cast h3600)
    refine ⟨⌊t⌋₊ / 3600, ⌊t⌋₊ % 3600 / 60, ⌊t⌋₊ % 60,
      by omega, by omega, by omega, ?_, ?_⟩
    · rw [← Int.natCast_floor_eq_floor ht]
      push_cast
      omega
    · simp only [sec_to_hms]
      rw [max_eq_right ht, sec_to_hms_hrs_eq t, sec_to_hms_mins_eq t ht,
        sec_to_hms_secs_eq t ht, if_pos (by omega : 0 < ⌊t⌋₊ / 3600)]
  · intro t ht hlt
    have hn : ⌊t⌋₊ < 3600 := (Nat.floor_lt ht).mpr (by exact_mod_cast hlt)
    refine ⟨⌊t⌋₊ / 60, ⌊t⌋₊ % 60, by omega, by omega, ?_, ?_⟩
    · rw [← Int.natCast_floor_eq_floor ht]
      push_cast
      omega
    · simp only [sec_to_hms]
      rw [max_eq_right ht, sec_to_hms_hrs_eq t, sec_to_hms_mins_eq t ht,
        sec_to_hms_secs_eq t ht, if_neg (by omega : ¬ 0 < ⌊t⌋₊ / 3600),
        show ⌊t⌋₊ % 3600 / 60 = ⌊t⌋₊ / 60 by omega]

/-- C8 witness: the negative-input and both format branches of
C8_sec_to_hms applied at concrete times -3, 3725 and 65. -/
theorem C8_sec_to_hms_witness :
    sec_to_hms (some (-3)) = "0:00" ∧
    (∃ h m s2 : ℕ, 0 < h ∧ m < 60 ∧ s2 < 60 ∧
       ((h * 3600 + m * 60 + s2 : ℕ) : ℤ) = ⌊(3725 : ℚ)⌋ ∧
       sec_to_hms (some 3725) = toString h ++ ":" ++ pad2 m ++ ":" ++ pad2 s2) ∧
    (∃ m s2 : ℕ, m < 60 ∧ s2 < 60 ∧
       ((m * 60 + s2 : ℕ) : ℤ) = ⌊(65 : ℚ)⌋ ∧
       sec_to_hms (some 65) = toString m ++ ":" ++ pad2 s2) :=
  ⟨C8_sec_to_hms.2.2.2.2.1 (-3) (by norm_num),
   C8_sec_to_hms.2.2.2.2.2.1 3725 (by norm_num),
   C8_sec_to_hms.2.2.2.2.2.2 65 (by norm_num) (by norm_num)⟩

/-- The fold implementing the Python min returns its seed or a list
element. -/
theorem pick_first_min_mem (x : ℚ) (l : List ℚ) :
    ∀ best, pick_first_min x best l = best ∨ pick_first_min x best l ∈ l := by
  induction l with
  | nil => intro best; exact Or.inl rfl
  | cons e rest ih =>
    intro best
    by_cases hc : |e - x| < |best - x|
    · simp only [pick_first_min, if_pos hc]
      rcases ih e with h | h
      · right; rw [h]; exact List.mem_cons_self e rest
      · right; exact List.mem_cons_of_mem e h
    · simp only [pick_first_min, if_neg hc]
      rcases ih best with h | h
      · left; exact h
      · right; exact List.mem_cons_of_mem e h

/-- The fold implementing the Python min returns an element whose
distance to x is minimal among the seed and the list. -/
theorem pick_first_min_le (x : ℚ) (l : List ℚ) :
    ∀ best, |pick_first_min x best l - x| ≤ |best - x| ∧
      ∀ y ∈ l, |pick_first_min x best l - x| ≤ |y - x| := by
  induction l with
  | nil => intro best; exact ⟨le_refl _, by simp⟩
  | cons e rest ih =>
    intro best
    by_cases hc : |e - x| < |best - x|
    · simp only [pick_first_min, if_pos hc]
      obtain ⟨h1, h2⟩ := ih e
      refine ⟨h1.trans hc.le, ?_⟩
      intro y hy
      rcases List.mem_cons.mp hy with rfl | hy
      · exact h1
      · exact h2 y hy
    · simp only [pick_first_min, if_neg hc]
      obtain ⟨h1, h2⟩ := ih best
      refine ⟨h1, ?_⟩
      intro y hy
      rcases List.mem_cons.mp hy with rfl | hy
      · exact h1.trans (not_lt.mp hc)
      · exact h2 y hy

/-- The snapped value is one of the nice steps. -/
theorem snap_nice_mem (x : ℚ) : snap_nice x ∈ nice := by
  rcases pick_first_min_mem x [2, 5, 10, 15, 30, 60, 120, 300, 600] 1 with h | h
  · rw [nice, snap_nice, h]
    exact List.mem_cons_self _ _
  · rw [nice, snap_nice]
    exact List.mem_cons_of_mem _ h

/-- The snapped value is nearest to x among the nice steps. -/
theorem snap_nice_nearest (x : ℚ) : ∀ y ∈ nice, |snap_nice x - x| ≤ |y - x| := by
  obtain ⟨h1, h2⟩ := pick_first_min_le x [2, 5, 10, 15, 30, 60, 120, 300, 600] 1
  intro y hy
  rw [nice] at hy
  rcases List.mem_cons.mp hy with rfl | hy
  · exact h1
  · exact h2 y hy

/-- Ties between two nice steps equidistant from x occur exactly at the
midpoints of adjacent steps, and at each of the nine midpoints the fold
keeps the earlier (smaller) step, matching the first-match-wins tie-break
of the Python min. -/
theorem snap_nice_first_on_ties :
    snap_nice (3/2) = 1 ∧ snap_nice (7/2) = 2 ∧ snap_nice (15/2) = 5 ∧
    snap_nice (25/2) = 10 ∧ snap_nice (45/2) = 15 ∧ snap_nice 45 = 30 ∧
    snap_nice 90 = 60 ∧ snap_nice 210 = 120 ∧ snap_nice 450 = 300 := by
  refine ⟨?_, ?_, ?_, ?_, ?_, ?_, ?_, ?_, ?_⟩ <;>
    norm_num [snap_nice, pick_first_min, abs_of_pos, abs_of_nonneg, abs_of_neg]

/-- Every nice step is at least one second. -/
theorem nice_one_le : ∀ y ∈ nice, (1 : ℚ) ≤ y := by decide

/-- Every nice step is a natural number of seconds. -/
theorem nice_natCast : ∀ y ∈ nice, ∃ m : ℕ, y = (m : ℚ) := by
  intro y hy
  rw [nice] at hy
  fin_cases hy
  · exact ⟨1, by norm_num⟩
  · exact ⟨2, by norm_num⟩
  · exact ⟨5, by norm_num⟩
  · exact ⟨10, by norm_num⟩
  · exact ⟨15, by norm_num⟩
  · exact ⟨30, by norm_num⟩
  · exact ⟨60, by norm_num⟩
  · exact ⟨120, by norm_num⟩
  · exact ⟨300, by norm_num⟩
  · exact ⟨600, by norm_num⟩

/-- Membership in a mapped range, specialised to rational-valued maps. -/
theorem mem_map_range_iff (n : ℕ) (g : ℕ → ℚ) (q : ℚ) :
    q ∈ (List.range n).map g ↔ ∃ k, k < n ∧ g k = q := by
  constructor
  · intro h
    obtain ⟨k, hk, hkq⟩ := List.mem_map.mp h
    exact ⟨k, List.mem_range.mp hk, hkq⟩
  · intro ⟨k, hk, hkq⟩
    exact List.mem_map.mpr ⟨k, List.mem_range.mpr hk, hkq⟩

/-- Tick list structure for durations of at least one second: the list
starts at 0, every element is k * step within the loop bound
d + 1/10000, and every multiple of the step within the bound occurs. -/
theorem tick_times_spec (clip_w d : ℚ) (h1 : 1 ≤ d) :
    (tick_times clip_w d).head? = some 0 ∧
    (∀ tt ∈ tick_times clip_w d, ∃ k : ℕ,
        tt = (k : ℚ) * seconds_per_tick clip_w d ∧ tt ≤ d + 1/10000) ∧
    (∀ k : ℕ, (k : ℚ) * seconds_per_tick clip_w d ≤ d + 1/10000 →
        (k : ℚ) * seconds_per_tick clip_w d ∈ tick_times clip_w d) := by
  have hdur : max 1 d = d := max_eq_right h1
  have hmem : seconds_per_tick clip_w d ∈ nice := snap_nice_mem _
  have hstep1 : (1 : ℚ) ≤ seconds_per_tick clip_w d := nice_one_le _ hmem
  have hstep0 : (0 : ℚ) < seconds_per_tick clip_w d := lt_of_lt_of_le one_pos hstep1
  have hbound0 : (0 : ℚ) ≤ d + 1/10000 := by linarith
  have hquot0 : (0 : ℚ) ≤ (d + 1/10000) / seconds_per_tick clip_w d :=
    div_nonneg hbound0 hstep0.le
  refine ⟨?_, ?_, ?_⟩
  · simp only [tick_times, hdur]
    rw [List.range_succ_eq_map]
    simp
  · intro tt htt
    rw [show tick_times clip_w d
        = (List.range ((⌊(d + 1/10000) / seconds_per_tick clip_w d⌋).toNat + 1)).map
            (fun k : ℕ => (k : ℚ) * seconds_per_tick clip_w d) by
      simp only [tick_times, hdur]] at htt
    obtain ⟨k, hkn, rfl⟩ := (mem_map_range_iff _ _ _).mp htt
    refine ⟨k, rfl, ?_⟩
    have hkle : k ≤ (⌊(d + 1/10000) / seconds_per_tick clip_w d⌋).toNat := by omega
    have hcast : (k : ℚ) ≤ (d + 1/10000) / seconds_per_tick clip_w d := by
      calc (k : ℚ) ≤ ((⌊(d + 1/10000) / seconds_per_tick clip_w d⌋.toNat : ℕ) : ℚ) := by
            exact_mod_cast hkle
        _ = ((⌊(d + 1/10000) / seconds_per_tick clip_w d⌋₊ : ℕ) : ℚ) := by
            rw [Int.floor_toNat]
        _ ≤ (d + 1/10000) / seconds_per_tick clip_w d := Nat.floor_le hquot0
    exact (le_div_iff₀ hstep0).mp hcast
  · intro k hk
    rw [show tick_times clip_w d
        = (List.range ((⌊(d + 1/10000) / seconds_per_tick clip_w d⌋).toNat + 1)).map
            (fun k : ℕ => (k : ℚ) * seconds_per_tick clip_w d) by
      simp only [tick_times, hdur]]
    refine (mem_map_range_iff _ _ _).mpr ⟨k, ?_, rfl⟩
    have hcast : (k : ℚ) ≤ (d + 1/10000) / seconds_per_tick clip_w d :=
      (le_div_iff₀ hstep0).mpr hk
    have hfl : k ≤ ⌊(d + 1/10000) / seconds_per_tick clip_w d⌋₊ := Nat.le_floor hcast
    rw [← Int.floor_toNat] at hfl
    omega

/-- C10: the tick generator computes the raw spacing
max(1, 120 / (clipBoxWidth / D)) (for D ≥ 1 and a layout clearing the
1/1000000 guard), snaps it to the nearest member of the nice set
{1,2,5,10,15,30,60,120,300,600} with ties at the nine midpoints won by
the earlier element, and emits the ticks 0, step, 2 step, ... exactly
while they stay at or below D + 1/10000; for D = 125 the ticks start at
0 and never exceed 125. -/
theorem C10_tick_generator (clip_w d : ℚ)
    (h1 : 1 ≤ d) (hcw : 1/1000000 ≤ clip_w / d) :
    seconds_per_tick clip_w d = snap_nice (max 1 (120 / (clip_w / d))) ∧
    seconds_per_tick clip_w d ∈ nice ∧
    (∀ y ∈ nice, |seconds_per_tick clip_w d - raw_seconds_per_tick clip_w d|
        ≤ |y - raw_seconds_per_tick clip_w d|) ∧
    (snap_nice (3/2) = 1 ∧ snap_nice (7/2) = 2 ∧ snap_nice (15/2) = 5 ∧
     snap_nice (25/2) = 10 ∧ snap_nice (45/2) = 15 ∧ snap_nice 45 = 30 ∧
     snap_nice 90 = 60 ∧ snap_nice 210 = 120 ∧ snap_nice 450 = 300) ∧
    (tick_times clip_w d).head? = some 0 ∧
    (∀ tt ∈ tick_times clip_w d, ∃ k : ℕ,
        tt = (k : ℚ) * seconds_per_tick clip_w d ∧ tt ≤ d + 1/10000) ∧
    (∀ k : ℕ, (k : ℚ) * seconds_per_tick clip_w d ≤ d + 1/10000 →
        (k : ℚ) * seconds_per_tick clip_w d ∈ tick_times clip_w d) ∧
    (d = 125 → ∀ tt ∈ tick_times clip_w d, tt ≤ 125) := by
  obtain ⟨hhead, hfwd, hback⟩ := tick_times_spec clip_w d h1
  refine ⟨?_, snap_nice_mem _, snap_nice_nearest _, snap_nice_first_on_ties,
    hhead, hfwd, hback, ?_⟩
  · simp only [seconds_per_tick, raw_seconds_per_tick, max_eq_right h1,
      max_eq_right hcw]
  · intro h125 tt htt
    obtain ⟨k, hk_eq, hk_le⟩ := hfwd tt htt
    obtain ⟨m, hm⟩ := nice_natCast _ (snap_nice_mem (raw_seconds_per_tick clip_w d))
    rw [h125] at hk_le
    have hmq : ((k * m : ℕ) : ℚ) ≤ 125 + 1/10000 := by
      push_cast
      calc (k : ℚ) * (m : ℚ) = (k : ℚ) * seconds_per_tick clip_w d := by
            rw [seconds_per_tick, ← hm]
        _ = tt := hk_eq.symm
        _ ≤ 125 + 1/10000 := hk_le
    have hnat : k * m ≤ 125 := by
      by_contra hcon
      have h126 : (126 : ℚ) ≤ ((k * m : ℕ) : ℚ) := by exact_mod_cast by omega
      linarith
    calc tt = (k : ℚ) * seconds_per_tick clip_w d := hk_eq
      _ = ((k * m : ℕ) : ℚ) := by rw [seconds_per_tick, hm]; push_cast; ring
      _ ≤ 125 := by exact_mod_cast hnat

/-- C10 witness: width 540 and duration 125 (raw spacing about 27.8
snapped to 30), hypotheses discharged concretely. -/
theorem C10_tick_generator_witness :
    (1 : ℚ) ≤ 125 ∧ (1/1000000 : ℚ) ≤ 540 / 125 ∧
    seconds_per_tick 540 125 ∈ nice ∧
    (tick_times 540 125).head? = some 0 ∧
    (∀ tt ∈ tick_times 540 125, tt ≤ 125) :=
  ⟨by norm_num, by norm_num,
   (C10_tick_generator 540 125 (by norm_num) (by norm_num)).2.1,
   (C10_tick_generator 540 125 (by norm_num) (by norm_num)).2.2.2.2.1,
   (C10_tick_generator 540 125 (by norm_num) (by norm_num)).2.2.2.2.2.2.2 rfl⟩
